import Mathlib

/-!
Verification development for the `py_mcp_client` sources of the
figma-mcp-write-server repository.

The Python sources embedded here are:
- `src/py_mcp_client/src/MCPClient.py` — the `MCPClient` class
  (`__init__`, `__aenter__`, `__aexit__`, `get_tools`, `call_tool`,
  `run_interactive_session`) and the helpers `find_server_pid` and
  `cleanup_server_process`;
- `src/py_mcp_client/client.py` — `main`, containing the plugin
  readiness poll and an interactive loop identical in logic to
  `run_interactive_session`;
- `src/py_mcp_client/src/figma_client.py` — a thin launcher.

External collaborators (the fastmcp `Client`/transport RPC surface,
`json.loads`, `yaml.safe_load`, psutil process introspection, the prompt
reader) are modelled as explicit oracle parameters; the repository's own
control flow around them is embedded faithfully.  Python exceptions are
modelled with `Except`/result pairs, Python string operations by the
`py*` helpers below, and the asynchronous calls — which the source fully
serializes with `await` — as ordinary sequential steps.
-/

/-- Character-wise lowercasing, the embedding of Python `str.lower()`
(the inputs exercised here are ASCII, where the two agree). -/
def pyLower (s : String) : String := String.mk (s.data.map Char.toLower)

/-- Embedding of Python `str.strip()` with no argument: remove leading
and trailing whitespace. -/
def pyStrip (s : String) : String :=
  String.mk (((s.data.dropWhile Char.isWhitespace).reverse.dropWhile Char.isWhitespace).reverse)

/-- Embedding of Python `str.startswith(p)`. -/
def pyStartswith (p s : String) : Bool := p.data.isPrefixOf s.data

/-- Locate the first occurrence of `sep` in a character list, returning
the characters before it and the characters after it. -/
def findSplit (sep : List Char) : List Char → Option (List Char × List Char)
  | [] => if sep.isPrefixOf ([] : List Char) then some ([], []) else none
  | c :: cs =>
    if sep.isPrefixOf (c :: cs) then some ([], (c :: cs).drop sep.length)
    else
      match findSplit sep cs with
      | some (pre, post) => some (c :: pre, post)
      | none => none

/-- Embedding of Python `s.split(sep, 1)`: split on the first occurrence
of `sep` only; when `sep` does not occur the result is `[s]`. -/
def pySplitOnce (sep s : String) : List String :=
  match findSplit sep.data s.data with
  | some (pre, post) => [String.mk pre, String.mk post]
  | none => [s]

/-- Embedding of Python `needle in haystack` for strings (substring
containment; the empty needle is contained in everything). -/
def pyInStr (needle haystack : String) : Bool :=
  (findSplit needle.data haystack.data).isSome

/-- JSON-like values, the result type of the modelled `json.loads` and
`yaml.safe_load`.  Numbers are restricted to integers, which covers
every value these sources inspect. -/
inductive JsonValue where
  | null : JsonValue
  | bool : Bool → JsonValue
  | num : Int → JsonValue
  | str : String → JsonValue
  | arr : List JsonValue → JsonValue
  | obj : List (String × JsonValue) → JsonValue

/-- Python truthiness of a decoded JSON/YAML value (`None`, `False`,
`0`, `""`, `[]`, `{}` are falsy). -/
def pyTruthyJson : JsonValue → Bool
  | .null => false
  | .bool b => b
  | .num n => n != 0
  | .str s => s != ""
  | .arr l => !l.isEmpty
  | .obj l => !l.isEmpty

/-- Embedding of Python `v == True`: `True == True` and, because Python
booleans are integers, `1 == True` as well. -/
def pyEqTrue : JsonValue → Bool
  | .bool b => b
  | .num n => n == 1
  | _ => false

/-- Lookup of a key in the field list of a decoded object, the embedding
of `dict.get(key)` (absent key gives `None`). -/
def lookupField (key : String) : List (String × JsonValue) → Option JsonValue
  | [] => none
  | (k, v) :: rest => if k = key then some v else lookupField key rest

/-- A catalog entry as returned by `client.list_tools()`: the attributes
the sources read are `name`, `description` and `inputSchema`. -/
structure Tool where
  name : String
  description : String
  inputSchema : JsonValue

/-- Insertion into a Python dict modelled as an association list: an
existing key keeps its position and gets the new value, a new key is
appended. -/
def dictInsert (m : List (String × Tool)) (k : String) (v : Tool) : List (String × Tool) :=
  if (m.map Prod.fst).contains k then
    m.map (fun p => if p.1 = k then (k, v) else p)
  else m ++ [(k, v)]

/-- Embedding of `MCPClient.get_tools` applied to the decoded
`list_tools()` result: `{tool.name: tool for tool in tools}`. -/
def MCPClient.get_tools (tools : List Tool) : List (String × Tool) :=
  tools.foldl (fun m t => dictInsert m t.name t) []

/-- Exact, case-sensitive lookup of a tool name in the catalog, the
embedding of `tool_map[name]` / `name in tool_map`. -/
def lookupTool (name : String) : List (String × Tool) → Option Tool
  | [] => none
  | (k, v) :: rest => if k = name then some v else lookupTool name rest

/-- Insert a string into a sorted list, ascending. -/
def insertSortedStr (x : String) : List String → List String
  | [] => [x]
  | y :: ys => if x < y then x :: y :: ys else y :: insertSortedStr x ys

/-- Ascending sort of strings, the embedding of Python
`sorted(tool_map.keys())` in `_print_tool_list`. -/
def sortStrings : List String → List String
  | [] => []
  | x :: xs => insertSortedStr x (sortStrings xs)

/-- Tool names in the order `_print_tool_list` prints them. -/
def sortedToolNames (tm : List (String × Tool)) : List String :=
  sortStrings (tm.map Prod.fst)

/-- Result of a tool call as the loop renders it: the attributes read
are `structured_content`, `content` (a list whose items carry `.text`,
modelled by those texts) and the raw object used as fallback. -/
structure ToolResponse where
  structured_content : Option JsonValue
  content : List String
  raw : String

/-- What the response-rendering chain printed. -/
inductive Rendered where
  | structured : JsonValue → Rendered
  | text : String → Rendered
  | raw : String → Rendered

/-- Embedding of the rendering chain of `run_interactive_session`
(lines 162–167): `if response.structured_content: ... elif
response.content: print(response.content[0].text) else:
print(response)`.  Note the first test is Python truthiness, so a
present-but-falsy structured value falls through. -/
def renderResponse (r : ToolResponse) : Rendered :=
  if pyTruthyJson (r.structured_content.getD .null) then
    .structured (r.structured_content.getD .null)
  else
    match r.content with
    | t :: _ => .text t
    | [] => .raw r.raw

/-- Reasons the loop rejects an input line without calling any tool. -/
inductive RejectReason where
  | badFormat
  | badJson
  | notDict
  | unknownTool : String → RejectReason

/-- The directive one input line parses to, following the branch order
of `run_interactive_session` exactly. -/
inductive LineCmd where
  | exitCmd
  | skip
  | helpAll
  | helpFor : String → LineCmd
  | rejected : RejectReason → LineCmd
  | invoke : String → List (String × JsonValue) → LineCmd

/-- The operand of `help <name>`: `line.split(' ', 1)[1]` on the
original (stripped, not lowercased) line. -/
def helpArg (s : String) : String :=
  match pySplitOnce " " s with
  | [_, r] => r
  | _ => ""

/-- Embedding of the per-line branch cascade of
`MCPClient.run_interactive_session` (lines 111–157) and of the identical
loop body in `client.py` `main` (lines 90–136).  `jl` is the oracle for
`json.loads` (`none` models `json.JSONDecodeError`). -/
def processLine (jl : String → Option JsonValue) (tm : List (String × Tool))
    (rawLine : String) : LineCmd :=
  if pyStrip rawLine = "" then .skip
  else if pyLower (pyStrip rawLine) = "exit" then .exitCmd
  else if pyLower (pyStrip rawLine) = "help" then .helpAll
  else if pyStartswith "help " (pyLower (pyStrip rawLine)) then
    .helpFor (helpArg (pyStrip rawLine))
  else
    match pySplitOnce ", " (pyStrip rawLine) with
    | [l, r] =>
      match jl (pyStrip r) with
      | none => .rejected .badJson
      | some v =>
        match v with
        | .obj fields =>
          match lookupTool (pyStrip l) tm with
          | none => .rejected (.unknownTool (pyStrip l))
          | some _ => .invoke (pyStrip l) fields
        | _ => .rejected .notDict
    | _ => .rejected .badFormat

/-- Observable steps of the interactive loop. -/
inductive LoopEvent where
  | printedHelpList : List String → LoopEvent
  | printedHelpFor : String → Bool → LoopEvent
  | printedReject : RejectReason → LoopEvent
  | rpcCall : String → List (String × JsonValue) → LoopEvent
  | printedResponse : Rendered → LoopEvent
  | printedError : String → LoopEvent

/-- Embedding of the `while True` body of `run_interactive_session`
(and of the identical loop in `client.py` `main`) over a finite list of
input lines; the end of the list models `EOFError` and breaks like
`exit`.  `rpc` is the oracle for `self.client.call_tool` (`Except.error`
models a raised exception, which the inner `try` catches and prints
before the loop continues). -/
def runLoopEvents (jl : String → Option JsonValue) (tm : List (String × Tool))
    (rpc : String → List (String × JsonValue) → Except String ToolResponse) :
    List String → List LoopEvent
  | [] => []
  | line :: rest =>
    match processLine jl tm line with
    | .exitCmd => []
    | .skip => runLoopEvents jl tm rpc rest
    | .helpAll => .printedHelpList (sortedToolNames tm) :: runLoopEvents jl tm rpc rest
    | .helpFor n =>
      .printedHelpFor n (lookupTool n tm).isSome :: runLoopEvents jl tm rpc rest
    | .rejected reason => .printedReject reason :: runLoopEvents jl tm rpc rest
    | .invoke n a =>
      match rpc n a with
      | .ok resp =>
        .rpcCall n a :: .printedResponse (renderResponse resp) :: runLoopEvents jl tm rpc rest
      | .error e =>
        .rpcCall n a :: .printedError e :: runLoopEvents jl tm rpc rest

/-- The RPC requests the loop actually issued, in order. -/
def rpcCalls (evs : List LoopEvent) : List (String × List (String × JsonValue)) :=
  evs.filterMap fun e =>
    match e with
    | .rpcCall n a => some (n, a)
    | _ => none

/-- Python exceptions the embedded code can observe or raise. -/
inductive PyExc where
  | importError : PyExc
  | noSuchProcess : PyExc
  | accessDenied : PyExc
  | nameError : String → PyExc
  | other : String → PyExc
deriving DecidableEq

/-- Observable steps of `MCPClient.__aexit__` and
`cleanup_server_process`. -/
inductive CloseEvent where
  | clientExitCall
  | cleanupCall : Nat → CloseEvent
  | sigterm : Nat → CloseEvent
  | graceSleep
deriving DecidableEq

/-- Embedding of `cleanup_server_process` (MCPClient.py lines 37–45).
Oracles: `psutilOk` — whether `import psutil` succeeds; `procExists` —
whether `psutil.Process(pid)` finds the process (otherwise it raises
`NoSuchProcess`); `sendResult` — the outcome of `proc.send_signal`.
The result pairs the delivered-signal events with the exception, if
any, that escapes the function.  The `except` clause names the tuple
`(psutil.NoSuchProcess, ImportError, Exception)`; evaluating it when
the `import psutil` statement itself failed dereferences the unbound
local name `psutil` and raises a NameError that escapes, so the
ImportError listed in the tuple is never actually swallowed. -/
def cleanup_server_process (psutilOk : Bool) (procExists : Nat → Bool)
    (sendResult : Nat → Except PyExc Unit) (server_pid : Nat) :
    List CloseEvent × Option PyExc :=
  if server_pid ≠ 0 then
    if psutilOk then
      if procExists server_pid then
        match sendResult server_pid with
        | .ok _ => ([CloseEvent.sigterm server_pid], none)
        | .error _ => ([], none)
      else ([], none)
    else ([], some (PyExc.nameError "psutil"))
  else ([], none)

/-- One entry of `psutil.process_iter(['pid', 'ppid', 'name',
'cmdline'])` as `find_server_pid` reads it. -/
structure ProcInfo where
  pid : Nat
  ppid : Nat
  cmdline : List String

/-- The match condition of `find_server_pid` (MCPClient.py lines
27–29): direct child of the current process whose command line has at
least two entries, the first containing the command name and the second
containing the script path as substrings. -/
def procMatches (current_pid : Nat) (command_name script_path : String)
    (p : ProcInfo) : Bool :=
  p.ppid == current_pid && !p.cmdline.isEmpty && p.cmdline.length ≥ 2 &&
    pyInStr command_name (p.cmdline.getD 0 "") &&
    pyInStr script_path (p.cmdline.getD 1 "")

/-- Scan of the process iterator: a per-process `NoSuchProcess` or
`AccessDenied` (an `Except.error` entry) is caught by the inner
`except` and the scan continues. -/
def scanProcs (current_pid : Nat) (command_name script_path : String) :
    List (Except PyExc ProcInfo) → Option Nat
  | [] => none
  | .error _ :: rest => scanProcs current_pid command_name script_path rest
  | .ok p :: rest =>
    if procMatches current_pid command_name script_path p then some p.pid
    else scanProcs current_pid command_name script_path rest

/-- Embedding of `find_server_pid` (MCPClient.py lines 20–35).  When
`import psutil` fails the outer `except ImportError: pass` is taken and
the function returns `None`; otherwise it scans the process list. -/
def find_server_pid (psutilOk : Bool) (current_pid : Nat)
    (procs : List (Except PyExc ProcInfo)) (command_name script_path : String) :
    Option Nat :=
  if psutilOk then scanProcs current_pid command_name script_path procs
  else none

/-- Which transport `MCPClient.__init__` stored. -/
inductive TransportChoice where
  | supplied
  | spawnedStdio : String → List String → Option String → TransportChoice
  | defaultStdio
deriving DecidableEq

/-- The attributes of an `MCPClient` instance that its methods read. -/
structure MCPClientSt where
  transport : TransportChoice
  hasClient : Bool
  server_pid : Option Nat
  command_name : Option String
  script_path : Option String
  init_delay : Rat

/-- Python truthiness of an optional string (`None` and `""` falsy). -/
def pyTruthyStrOpt : Option String → Bool
  | some s => s != ""
  | none => false

/-- Python truthiness of an optional list (`None` and `[]` falsy),
used for `args[0] if args else None`. -/
def pyHeadIfTruthy (args : Option (List String)) : Option String :=
  match args with
  | some (a :: _) => some a
  | _ => none

/-- Embedding of `MCPClient.__init__` (MCPClient.py lines 50–62).
`transportArg` is whether a (truthy) transport object was passed.  The
branch order is the source's: a passed transport wins, else a truthy
command spawns a `StdioTransport(command, args or [], cwd)`, else the
default `StdioTransport()`.  Note `command_name` and `script_path` are
set from `command`/`args` regardless of which branch ran. -/
def MCPClient.init (transportArg : Bool) (command : Option String)
    (args : Option (List String)) (cwd : Option String) (init_delay : Rat) :
    MCPClientSt :=
  { transport :=
      if transportArg then .supplied
      else if pyTruthyStrOpt command then
        .spawnedStdio (command.getD "") ((args.getD [])) cwd
      else .defaultStdio
    hasClient := false
    server_pid := none
    command_name := command
    script_path := pyHeadIfTruthy args
    init_delay := init_delay }

/-- Observable steps of `MCPClient.__aenter__`. -/
inductive EnterEvent where
  | clientEnter
  | pidLookup : String → String → EnterEvent
  | initSleep : Rat → EnterEvent
deriving DecidableEq

/-- Embedding of `MCPClient.__aenter__` (MCPClient.py lines 64–77)
after a successful `Client.__aenter__` (a transport-open failure would
propagate before any of the steps modelled here).  The PID lookup runs
when both `command_name` and `script_path` are truthy; the
initialization sleep runs when `command_name` is truthy and
`init_delay > 0`. -/
def MCPClient.aenter (findPid : String → String → Option Nat)
    (st : MCPClientSt) : MCPClientSt × List EnterEvent :=
  let st1 := { st with hasClient := true }
  let doLookup := pyTruthyStrOpt st1.command_name && pyTruthyStrOpt st1.script_path
  let st2 :=
    if doLookup then
      { st1 with server_pid := findPid (st1.command_name.getD "") (st1.script_path.getD "") }
    else st1
  let lookupEvs :=
    if doLookup then [EnterEvent.pidLookup (st1.command_name.getD "") (st1.script_path.getD "")]
    else []
  let sleepEvs :=
    if pyTruthyStrOpt st2.command_name && decide (0 < st2.init_delay) then
      [EnterEvent.initSleep st2.init_delay]
    else []
  (st2, EnterEvent.clientEnter :: lookupEvs ++ sleepEvs)

/-- Embedding of `MCPClient.__aexit__` (MCPClient.py lines 79–86).
`clientExitResult` is the outcome of `self.client.__aexit__`; the
source wraps it in no `try`, so an error there escapes at once and the
process-cleanup block is never reached.  The cleanup block runs when
`self.server_pid` is truthy, re-raising whatever
`cleanup_server_process` lets escape; on its normal return the fixed
0.5 s grace sleep follows.  Nothing resets `self.client` or
`self.server_pid`. -/
def MCPClient.aexit (clientExitResult : Except PyExc Unit) (psutilOk : Bool)
    (procExists : Nat → Bool) (sendResult : Nat → Except PyExc Unit)
    (st : MCPClientSt) : List CloseEvent × Option PyExc :=
  let pidPart : List CloseEvent × Option PyExc :=
    match st.server_pid with
    | some pid =>
      if pid ≠ 0 then
        let c := cleanup_server_process psutilOk procExists sendResult pid
        match c.2 with
        | some e => (CloseEvent.cleanupCall pid :: c.1, some e)
        | none => (CloseEvent.cleanupCall pid :: c.1 ++ [CloseEvent.graceSleep], none)
      else ([], none)
    | none => ([], none)
  if st.hasClient then
    match clientExitResult with
    | .error e => ([CloseEvent.clientExitCall], some e)
    | .ok _ => (CloseEvent.clientExitCall :: pidPart.1, pidPart.2)
  else pidPart

/-- Embedding of `MCPClient.call_tool` (MCPClient.py lines 93–95): it
forwards the name and arguments to `self.client.call_tool` unchanged —
there is no catalog membership check in this method. -/
def MCPClient.call_tool
    (rpc : String → List (String × JsonValue) → Except String ToolResponse)
    (tool_name : String) (arguments : List (String × JsonValue)) :
    Except String ToolResponse :=
  rpc tool_name arguments

/-- The attributes of a `figma_plugin_status` response that the poll in
`client.py` reads: the `.text` of each content item. -/
structure StatusResponse where
  content : List String

/-- Whether one poll iteration of `client.py` `main` (lines 52–68) sets
`plugin_connected`.  `call` is the outcome of the
`client.call_tool("figma_plugin_status", ...)` RPC (an `Except.error`
models a raised exception, caught by the iteration's `except`);
`yamlLoad` is the oracle for `yaml.safe_load` (its own raise is also
caught, since it sits inside the same `try`).  The connected test is
`status_data and status_data.get("connected") == True`; on a truthy
non-dict value `.get` raises AttributeError, which the same `except`
catches, so only a truthy dict can pass. -/
def attemptConnected (yamlLoad : String → Except PyExc JsonValue)
    (call : Except PyExc StatusResponse) : Bool :=
  match call with
  | .error _ => false
  | .ok resp =>
    match resp.content with
    | [] => false
    | t :: _ =>
      if t = "" then false
      else
        match yamlLoad t with
        | .error _ => false
        | .ok d =>
          if pyTruthyJson d then
            match d with
            | .obj fields => pyEqTrue ((lookupField "connected" fields).getD .null)
            | _ => false
          else false

/-- Totals of one readiness-poll run. -/
structure PollResult where
  connected : Bool
  attempts : Nat
  sleeps : Nat
deriving DecidableEq

/-- Embedding of the `while not plugin_connected and retries <
max_retries` loop of `client.py` `main` (lines 51–69): `fuel` is
`max_retries - retries` and `r` the current value of `retries`, which
indexes the `call` oracle since each iteration makes exactly one status
call.  Every branch that does not set `plugin_connected` performs one
1-second sleep before `retries += 1`; the connecting iteration sleeps
not at all. -/
def pollAux (yamlLoad : String → Except PyExc JsonValue)
    (call : Nat → Except PyExc StatusResponse) : Nat → Nat → PollResult
  | 0, _ => { connected := false, attempts := 0, sleeps := 0 }
  | fuel + 1, r =>
    if attemptConnected yamlLoad (call r) then
      { connected := true, attempts := 1, sleeps := 0 }
    else
      let rest := pollAux yamlLoad call fuel (r + 1)
      { connected := rest.connected, attempts := rest.attempts + 1,
        sleeps := rest.sleeps + 1 }

/-- The readiness poll started at `retries = 0` with bound
`max_retries`; the source's bound is 30. -/
def pollPluginStatus (yamlLoad : String → Except PyExc JsonValue)
    (call : Nat → Except PyExc StatusResponse) (max_retries : Nat) : PollResult :=
  pollAux yamlLoad call max_retries 0

/-- Observable outcome of `client.py` `main` after the connection
succeeds: the poll totals, whether the not-connected warning was
printed, and the interactive-loop events that follow.  The source
always proceeds from the poll — connected or not — to fetching the
tool list and running the loop. -/
structure MainRun where
  poll : PollResult
  warned : Bool
  loop : List LoopEvent

/-- Embedding of `client.py` `main` (lines 46–154) from the readiness
poll onward: poll with `max_retries = 30`, warn iff the poll exhausted
without connecting, then fetch tools and run the interactive loop. -/
def clientMain (yamlLoad : String → Except PyExc JsonValue)
    (call : Nat → Except PyExc StatusResponse)
    (jl : String → Option JsonValue) (tm : List (String × Tool))
    (rpc : String → List (String × JsonValue) → Except String ToolResponse)
    (lines : List String) : MainRun :=
  let p := pollPluginStatus yamlLoad call 30
  { poll := p, warned := !p.connected, loop := runLoopEvents jl tm rpc lines }

/-- Finite stand-in for Python `json.loads`, restricted to the literal
argument strings exercised in this file; each equation agrees with
CPython's `json.loads` on that literal ("\x7b\x7d" is the two-character
text consisting of an opening and a closing curly brace, which decodes
to the empty object; "1" decodes to the number 1, which is valid JSON
but not an object; "notjson" raises `JSONDecodeError`). -/
def jsonLoadsSample (s : String) : Option JsonValue :=
  if s = "\x7b\x7d" then some (.obj [])
  else if s = "\x7b\"a\": 1\x7d" then some (.obj [("a", .num 1)])
  else if s = "1" then some (.num 1)
  else if s = "[1]" then some (.arr [.num 1])
  else none

/-- A sample catalog entry named `Foo`. -/
def toolFoo : Tool := { name := "Foo", description := "demo", inputSchema := .null }

/-- A sample catalog entry whose name contains a space and starts with
the word help. -/
def toolHelpX : Tool := { name := "help x", description := "demo", inputSchema := .null }

/-- Sample catalog containing exactly `Foo`, built through
`get_tools`. -/
def tmFoo : List (String × Tool) := MCPClient.get_tools [toolFoo]

/-- Sample catalog containing exactly the tool named `help x`. -/
def tmHelpX : List (String × Tool) := MCPClient.get_tools [toolHelpX]

/-- An RPC oracle that always succeeds and echoes the requested tool
name in the structured content, so a response proves which request
reached the RPC surface. -/
def rpcProbe (n : String) (_a : List (String × JsonValue)) :
    Except String ToolResponse :=
  .ok { structured_content := some (.str n), content := [], raw := "resp" }

/-- An RPC oracle that always raises. -/
def rpcErr (_n : String) (_a : List (String × JsonValue)) :
    Except String ToolResponse :=
  .error "boom"

/-- A connected session that launched its own server process and
recovered pid 7, as left by `__aenter__`; `__aexit__` never mutates
these fields, so a second close starts from this same state. -/
def sampleSt : MCPClientSt :=
  { transport := .spawnedStdio "node" ["dist/index.js"] (some "/repo")
    hasClient := true
    server_pid := some 7
    command_name := some "node"
    script_path := some "dist/index.js"
    init_delay := 2 }

/-- A character of the separator occurs in any list that `findSplit`
splits successfully. -/
theorem findSplit_some_mem {sep : List Char} {c0 : Char} (hc : c0 ∈ sep) :
    ∀ {cs : List Char} {pp : List Char × List Char},
    findSplit sep cs = some pp → c0 ∈ cs := by
  intro cs
  induction cs with
  | nil =>
    intro pp h
    simp only [findSplit] at h
    split at h
    · rename_i hp
      rw [List.isPrefixOf_iff_prefix, List.prefix_nil] at hp
      rw [hp] at hc
      exact absurd hc (by simp)
    · exact absurd h (by simp)
  | cons c cs ih =>
    intro pp h
    simp only [findSplit] at h
    split at h
    · rename_i hp
      exact (List.isPrefixOf_iff_prefix.mp hp).subset hc
    · revert h
      split
      · rename_i pre post hfs
        intro _
        exact List.mem_cons_of_mem c (ih hfs)
      · intro h
        exact absurd h (by simp)

/-- A successful two-way split on a comma-space separator means the
string contains a comma. -/
theorem pySplitOnce_comma_mem {s l r : String}
    (h : pySplitOnce ", " s = [l, r]) : ',' ∈ s.data := by
  unfold pySplitOnce at h
  revert h
  split
  · rename_i pre post hfs
    intro _
    exact findSplit_some_mem (by decide) hfs
  · intro h
    exact absurd h (by simp)

/-- A line that splits in two on a comma-space separator is non-empty
and lowercases to neither of the keywords, because keywords contain no
comma and lowercasing keeps a comma a comma. -/
theorem splitFacts {s l r : String} (h : pySplitOnce ", " s = [l, r]) :
    s ≠ "" ∧ pyLower s ≠ "exit" ∧ pyLower s ≠ "help" := by
  have hc := pySplitOnce_comma_mem h
  have hlow : ',' ∈ (pyLower s).data :=
    List.mem_map.mpr ⟨',', hc, by decide⟩
  refine ⟨?_, ?_, ?_⟩
  · intro he
    rw [he] at hc
    exact absurd hc (by decide)
  · intro he
    rw [he] at hlow
    exact absurd hlow (by decide)
  · intro he
    rw [he] at hlow
    exact absurd hlow (by decide)

@[simp] theorem rpcCalls_nil : rpcCalls [] = [] := rfl

@[simp] theorem rpcCalls_cons_helpList {ns : List String} {evs : List LoopEvent} :
    rpcCalls (.printedHelpList ns :: evs) = rpcCalls evs := rfl

@[simp] theorem rpcCalls_cons_helpFor {n : String} {b : Bool} {evs : List LoopEvent} :
    rpcCalls (.printedHelpFor n b :: evs) = rpcCalls evs := rfl

@[simp] theorem rpcCalls_cons_reject {reason : RejectReason} {evs : List LoopEvent} :
    rpcCalls (.printedReject reason :: evs) = rpcCalls evs := rfl

@[simp] theorem rpcCalls_cons_response {rend : Rendered} {evs : List LoopEvent} :
    rpcCalls (.printedResponse rend :: evs) = rpcCalls evs := rfl

@[simp] theorem rpcCalls_cons_error {msg : String} {evs : List LoopEvent} :
    rpcCalls (.printedError msg :: evs) = rpcCalls evs := rfl

@[simp] theorem rpcCalls_cons_rpc {n : String} {a : List (String × JsonValue)}
    {evs : List LoopEvent} :
    rpcCalls (.rpcCall n a :: evs) = (n, a) :: rpcCalls evs := rfl

/-- Any line whose stripped form lowercases to `exit` parses to the
exit directive. -/
theorem processLine_exit {jl : String → Option JsonValue}
    {tm : List (String × Tool)} {line : String}
    (h : pyLower (pyStrip line) = "exit") :
    processLine jl tm line = .exitCmd := by
  have h1 : pyStrip line ≠ "" := by
    intro he
    rw [he] at h
    exact absurd h (by decide)
  unfold processLine
  rw [if_neg h1, if_pos h]

/-- Any line whose stripped form lowercases to `help` parses to the
help-list directive. -/
theorem processLine_help {jl : String → Option JsonValue}
    {tm : List (String × Tool)} {line : String}
    (h : pyLower (pyStrip line) = "help") :
    processLine jl tm line = .helpAll := by
  have h1 : pyStrip line ≠ "" := by
    intro he
    rw [he] at h
    exact absurd h (by decide)
  have h2 : pyLower (pyStrip line) ≠ "exit" := by
    rw [h]
    decide
  unfold processLine
  rw [if_neg h1, if_neg h2, if_pos h]

/-- Any line whose stripped, lowercased form begins with the
five characters of `help ` parses to a help lookup whose operand is the
whole remainder of the original line after its first space. -/
theorem processLine_helpFor {jl : String → Option JsonValue}
    {tm : List (String × Tool)} {line : String}
    (h : pyStartswith "help " (pyLower (pyStrip line)) = true) :
    processLine jl tm line = .helpFor (helpArg (pyStrip line)) := by
  have h1 : pyStrip line ≠ "" := by
    intro he
    rw [he] at h
    exact absurd h (by decide)
  have h2 : pyLower (pyStrip line) ≠ "exit" := by
    intro he
    rw [he] at h
    exact absurd h (by decide)
  have h3 : pyLower (pyStrip line) ≠ "help" := by
    intro he
    rw [he] at h
    exact absurd h (by decide)
  unfold processLine
  rw [if_neg h1, if_neg h2, if_neg h3, if_pos h]

/-- When none of the keyword branches applies, `processLine` is the
split-parse-lookup cascade. -/
theorem processLine_eval_split {jl : String → Option JsonValue}
    {tm : List (String × Tool)} {line : String}
    (h1 : pyStrip line ≠ "") (h2 : pyLower (pyStrip line) ≠ "exit")
    (h3 : pyLower (pyStrip line) ≠ "help")
    (h4 : pyStartswith "help " (pyLower (pyStrip line)) = false) :
    processLine jl tm line =
      match pySplitOnce ", " (pyStrip line) with
      | [l, r] =>
        match jl (pyStrip r) with
        | none => .rejected .badJson
        | some v =>
          match v with
          | .obj fields =>
            match lookupTool (pyStrip l) tm with
            | none => .rejected (.unknownTool (pyStrip l))
            | some _ => .invoke (pyStrip l) fields
          | _ => .rejected .notDict
      | _ => .rejected .badFormat := by
  unfold processLine
  rw [if_neg h1, if_neg h2, if_neg h3, if_neg (by rw [h4]; simp)]

/-- An invoke directive is only ever produced for a name present in the
catalog. -/
theorem processLine_invoke_lookup {jl : String → Option JsonValue}
    {tm : List (String × Tool)} {line n : String} {a : List (String × JsonValue)}
    (h : processLine jl tm line = .invoke n a) :
    ∃ t, lookupTool n tm = some t := by
  unfold processLine at h
  split at h
  · exact absurd h (by simp)
  · split at h
    · exact absurd h (by simp)
    · split at h
      · exact absurd h (by simp)
      · split at h
        · exact absurd h (by simp)
        · revert h
          split
          · split
            · intro h
              exact absurd h (by simp)
            · split
              · split
                · intro h
                  exact absurd h (by simp)
                · rename_i t ht
                  intro h
                  injection h with hn ha
                  rw [← hn]
                  exact ⟨t, ht⟩
              · intro h
                exact absurd h (by simp)
          · intro h
            exact absurd h (by simp)

/-- A poll whose predicate holds on no attempt within the window runs
through its whole fuel, one sleep per attempt, and stays
not-connected. -/
theorem pollAux_never_connected (yl : String → Except PyExc JsonValue)
    (call : Nat → Except PyExc StatusResponse) :
    ∀ (fuel r : Nat),
      (∀ i, r ≤ i → i < r + fuel → attemptConnected yl (call i) = false) →
      pollAux yl call fuel r
        = { connected := false, attempts := fuel, sleeps := fuel } := by
  intro fuel
  induction fuel with
  | zero => intro r _; rfl
  | succ f ih =>
    intro r h
    have hr : attemptConnected yl (call r) = false :=
      h r (Nat.le_refl r) (by omega)
    have hrest := ih (r + 1) (fun i h1 h2 => h i (by omega) (by omega))
    simp [pollAux, hr, hrest]

/-- C1 counterexample: the claim quantifies over every line of the form
`<tool>, <json-object>` whose trimmed tool name is a catalog key, but a
line whose lowercased form begins with the word help followed by a
space is consumed by the help branch first.  With the catalog
containing the tool named `help x`, the input `help x, \x7b\x7d` has
the claimed form — it splits into the catalog key `help x` and the JSON
object text — yet the loop renders a help-lookup miss and makes no RPC
call at all, so `callTool` is not invoked with that name and object. -/
theorem c1_counterexample_help_prefixed_invoke :
    pySplitOnce ", " (pyStrip "help x, \x7b\x7d") = ["help x", "\x7b\x7d"] ∧
    jsonLoadsSample (pyStrip "\x7b\x7d") = some (JsonValue.obj []) ∧
    (lookupTool "help x" tmHelpX).isSome = true ∧
    runLoopEvents jsonLoadsSample tmHelpX rpcProbe ["help x, \x7b\x7d"]
      = [LoopEvent.printedHelpFor "x, \x7b\x7d" false] ∧
    rpcCalls (runLoopEvents jsonLoadsSample tmHelpX rpcProbe ["help x, \x7b\x7d"]) = [] :=
  ⟨rfl, rfl, rfl, rfl, rfl⟩

/-- C1 (amended): for every input line of the form `<tool>,
<json-object>` — provided its stripped, lowercased form does not begin
with `help ` — where the JSON parses to an object and the trimmed tool
name is a catalog key, the loop invokes the RPC with exactly that tool
name and exactly the parsed object, prints one result or error line,
and continues with the remaining input whether the call succeeds or
raises. -/
theorem c1_wellformed_invoke_calls_tool_and_continues
    (jl : String → Option JsonValue) (tm : List (String × Tool))
    (rpc : String → List (String × JsonValue) → Except String ToolResponse)
    (line : String) (rest : List String) (l r : String)
    (fields : List (String × JsonValue)) (tool : Tool)
    (hsplit : pySplitOnce ", " (pyStrip line) = [l, r])
    (hjson : jl (pyStrip r) = some (.obj fields))
    (htool : lookupTool (pyStrip l) tm = some tool)
    (hnothelp : pyStartswith "help " (pyLower (pyStrip line)) = false) :
    ∃ e, runLoopEvents jl tm rpc (line :: rest)
      = LoopEvent.rpcCall (pyStrip l) fields :: e :: runLoopEvents jl tm rpc rest := by
  obtain ⟨h1, h2, h3⟩ := splitFacts hsplit
  have hp : processLine jl tm line = .invoke (pyStrip l) fields := by
    rw [processLine_eval_split h1 h2 h3 hnothelp]
    simp only [hsplit, hjson, htool]
  cases hr : rpc (pyStrip l) fields with
  | ok resp =>
    refine ⟨.printedResponse (renderResponse resp), ?_⟩
    simp [runLoopEvents, hp, hr]
  | error e =>
    refine ⟨.printedError e, ?_⟩
    simp [runLoopEvents, hp, hr]

/-- C1 witness: the well-formed line `Foo, \x7b\x7d` against an RPC
that raises still records exactly the parsed call and the loop goes on
to process the next (malformed) line. -/
theorem c1_witness :
    ∃ e, runLoopEvents jsonLoadsSample tmFoo rpcErr ["Foo, \x7b\x7d", "x"]
      = LoopEvent.rpcCall "Foo" [] :: e :: runLoopEvents jsonLoadsSample tmFoo rpcErr ["x"] :=
  c1_wellformed_invoke_calls_tool_and_continues jsonLoadsSample tmFoo rpcErr
    "Foo, \x7b\x7d" ["x"] "Foo" "\x7b\x7d" [] toolFoo rfl rfl rfl rfl

/-- C4 counterexample: the claim quantifies over every input line that
lacks a comma-space separator, but the line `exit` — which has no such
separator — is not rejected with a reason message: the loop terminates
on it, so the following line is never prompted for. -/
theorem c4_counterexample_exit_line_not_rejected :
    pySplitOnce ", " (pyStrip "exit") = ["exit"] ∧
    runLoopEvents jsonLoadsSample tmFoo rpcProbe ["exit", "x"] = [] :=
  ⟨rfl, rfl⟩

/-- C4 (amended): for every input line whose stripped form is
non-empty, is not a case-variant of `exit` or `help` and does not begin
(case-insensitively) with `help `, if the line lacks a comma-space
separator, or its right-hand part is not valid JSON, or parses to a
non-object JSON value, the loop prints one rejection with a reason,
makes no RPC call, and continues with the remaining input. -/
theorem c4_malformed_line_rejected_no_rpc
    (jl : String → Option JsonValue) (tm : List (String × Tool))
    (rpc : String → List (String × JsonValue) → Except String ToolResponse)
    (line : String) (rest : List String)
    (h1 : pyStrip line ≠ "")
    (h2 : pyLower (pyStrip line) ≠ "exit")
    (h3 : pyLower (pyStrip line) ≠ "help")
    (h4 : pyStartswith "help " (pyLower (pyStrip line)) = false)
    (h5 : ∀ l r, pySplitOnce ", " (pyStrip line) = [l, r] →
      jl (pyStrip r) = none ∨
        ∃ v, jl (pyStrip r) = some v ∧ ∀ fields, v ≠ JsonValue.obj fields) :
    (∃ reason, runLoopEvents jl tm rpc (line :: rest)
      = LoopEvent.printedReject reason :: runLoopEvents jl tm rpc rest) ∧
    rpcCalls (runLoopEvents jl tm rpc (line :: rest))
      = rpcCalls (runLoopEvents jl tm rpc rest) := by
  have hmain : ∃ reason, runLoopEvents jl tm rpc (line :: rest)
      = LoopEvent.printedReject reason :: runLoopEvents jl tm rpc rest := by
    have hp := @processLine_eval_split jl tm line h1 h2 h3 h4
    cases hsp : pySplitOnce ", " (pyStrip line) with
    | nil =>
      rw [hsp] at hp
      exact ⟨.badFormat, by simp [runLoopEvents, hp]⟩
    | cons l tail =>
      cases tail with
      | nil =>
        rw [hsp] at hp
        exact ⟨.badFormat, by simp [runLoopEvents, hp]⟩
      | cons r tail2 =>
        cases tail2 with
        | cons x xs =>
          rw [hsp] at hp
          exact ⟨.badFormat, by simp [runLoopEvents, hp]⟩
        | nil =>
          rw [hsp] at hp
          rcases h5 l r hsp with hj | ⟨v, hj, hv⟩
          · simp only [hj] at hp
            exact ⟨.badJson, by simp [runLoopEvents, hp]⟩
          · simp only [hj] at hp
            cases v with
            | obj fields => exact absurd rfl (hv fields)
            | null => exact ⟨.notDict, by simp [runLoopEvents, hp]⟩
            | bool b => exact ⟨.notDict, by simp [runLoopEvents, hp]⟩
            | num m => exact ⟨.notDict, by simp [runLoopEvents, hp]⟩
            | str s => exact ⟨.notDict, by simp [runLoopEvents, hp]⟩
            | arr xs => exact ⟨.notDict, by simp [runLoopEvents, hp]⟩
  refine ⟨hmain, ?_⟩
  obtain ⟨reason, hev⟩ := hmain
  rw [hev]
  simp

/-- C4 witness: the line `x, notjson` (separator present, right side
not valid JSON) is rejected and the next line is still processed. -/
theorem c4_witness :
    (∃ reason, runLoopEvents jsonLoadsSample tmFoo rpcProbe ["x, notjson", "HELP"]
      = LoopEvent.printedReject reason
        :: runLoopEvents jsonLoadsSample tmFoo rpcProbe ["HELP"]) ∧
    rpcCalls (runLoopEvents jsonLoadsSample tmFoo rpcProbe ["x, notjson", "HELP"])
      = rpcCalls (runLoopEvents jsonLoadsSample tmFoo rpcProbe ["HELP"]) := by
  refine c4_malformed_line_rejected_no_rpc jsonLoadsSample tmFoo rpcProbe
    "x, notjson" ["HELP"] (by decide) (by decide) (by decide) rfl ?_
  intro l r h
  have h' : (["x", "notjson"] : List String) = [l, r] := h
  simp only [List.cons.injEq] at h'
  obtain ⟨hl, hr, -⟩ := h'
  rw [← hr]
  exact Or.inl rfl

/-- C9: every input line whose stripped, lowercased form begins with
`help ` is handled by the help-lookup branch — its operand being the
entire remainder of the original line after its first space — and the
loop never dispatches a tool invocation for it, even if that remainder
contains a comma-space separator followed by a valid JSON object, with
the loop continuing on the remaining input. -/
theorem c9_help_prefix_never_dispatches
    (jl : String → Option JsonValue) (tm : List (String × Tool))
    (rpc : String → List (String × JsonValue) → Except String ToolResponse)
    (line : String) (rest : List String)
    (h : pyStartswith "help " (pyLower (pyStrip line)) = true) :
    runLoopEvents jl tm rpc (line :: rest)
      = LoopEvent.printedHelpFor (helpArg (pyStrip line))
          (lookupTool (helpArg (pyStrip line)) tm).isSome
        :: runLoopEvents jl tm rpc rest ∧
    rpcCalls (runLoopEvents jl tm rpc (line :: rest))
      = rpcCalls (runLoopEvents jl tm rpc rest) := by
  have hp := @processLine_helpFor jl tm line h
  constructor
  · simp [runLoopEvents, hp]
  · simp [runLoopEvents, hp]

/-- C9 witness: `HELP foo, \x7b"a": 1\x7d` — whose remainder splits
into the catalog key `Foo`-adjacent name and a valid JSON object — is
rendered as a help lookup for the whole remainder and issues no RPC
call. -/
theorem c9_witness :
    runLoopEvents jsonLoadsSample tmFoo rpcProbe ["HELP foo, \x7b\"a\": 1\x7d", "x"]
      = [LoopEvent.printedHelpFor "foo, \x7b\"a\": 1\x7d" false,
         LoopEvent.printedReject RejectReason.badFormat] ∧
    rpcCalls (runLoopEvents jsonLoadsSample tmFoo rpcProbe
      ["HELP foo, \x7b\"a\": 1\x7d", "x"]) = [] := by
  have h := c9_help_prefix_never_dispatches jsonLoadsSample tmFoo rpcProbe
    "HELP foo, \x7b\"a\": 1\x7d" ["x"] rfl
  exact ⟨h.1.trans rfl, h.2.trans rfl⟩

/-- C8: the command keywords are matched on the lowercased line, so
`exit` and `help` are recognized in any case, while the `help <name>`
catalog lookup uses the name exactly as typed: with the catalog
containing `Foo` but not `foo`, the input `help foo` renders a
not-found message rather than the tool's help. -/
theorem c8_keywords_case_insensitive_lookup_case_sensitive :
    (∀ (jl : String → Option JsonValue) (tm : List (String × Tool))
       (rpc : String → List (String × JsonValue) → Except String ToolResponse)
       (line : String) (rest : List String),
       pyLower (pyStrip line) = "exit" →
       runLoopEvents jl tm rpc (line :: rest) = []) ∧
    (∀ (jl : String → Option JsonValue) (tm : List (String × Tool))
       (rpc : String → List (String × JsonValue) → Except String ToolResponse)
       (line : String) (rest : List String),
       pyLower (pyStrip line) = "help" →
       runLoopEvents jl tm rpc (line :: rest)
         = LoopEvent.printedHelpList (sortedToolNames tm)
           :: runLoopEvents jl tm rpc rest) ∧
    (lookupTool "Foo" tmFoo).isSome = true ∧
    lookupTool "foo" tmFoo = none ∧
    runLoopEvents jsonLoadsSample tmFoo rpcProbe ["help foo"]
      = [LoopEvent.printedHelpFor "foo" false] := by
  refine ⟨?_, ?_, rfl, rfl, rfl⟩
  · intro jl tm rpc line rest h
    simp [runLoopEvents, @processLine_exit jl tm line h]
  · intro jl tm rpc line rest h
    simp [runLoopEvents, @processLine_help jl tm line h]

/-- C8 witness: the uppercase keywords `EXIT` and `HELP` are recognized
through the case-insensitive branches. -/
theorem c8_witness :
    runLoopEvents jsonLoadsSample tmFoo rpcProbe ["EXIT"] = [] ∧
    runLoopEvents jsonLoadsSample tmFoo rpcProbe ["HELP", "exit"]
      = [LoopEvent.printedHelpList ["Foo"]] :=
  ⟨c8_keywords_case_insensitive_lookup_case_sensitive.1
      jsonLoadsSample tmFoo rpcProbe "EXIT" [] rfl,
   (c8_keywords_case_insensitive_lookup_case_sensitive.2.1
      jsonLoadsSample tmFoo rpcProbe "HELP" ["exit"] rfl).trans rfl⟩

/-- C3 counterexample: `MCPClient.call_tool` performs no catalog check.
With `ghost` absent from the catalog, `call_tool` does not fail with an
unknown-tool error: it forwards the request to the client RPC — the
echoed name in the response shows the request reached it — and returns
the RPC's success. -/
theorem c3_counterexample_call_tool_forwards_unknown :
    MCPClient.call_tool rpcProbe "ghost" []
      = Except.ok { structured_content := some (.str "ghost"), content := [],
                    raw := "resp" } ∧
    lookupTool "ghost" tmFoo = none :=
  ⟨rfl, rfl⟩

/-- C3 (amended): `MCPClient.call_tool` itself forwards every request
to the client RPC unchanged, with no catalog check; the unknown-tool
guard lives in the interactive loop, which issues an RPC call only for
names present in the cached catalog. -/
theorem c3_loop_guards_catalog_membership :
    (∀ (rpc : String → List (String × JsonValue) → Except String ToolResponse)
       (n : String) (a : List (String × JsonValue)),
       MCPClient.call_tool rpc n a = rpc n a) ∧
    (∀ (jl : String → Option JsonValue) (tm : List (String × Tool))
       (rpc : String → List (String × JsonValue) → Except String ToolResponse)
       (lines : List String) (n : String) (a : List (String × JsonValue)),
       (n, a) ∈ rpcCalls (runLoopEvents jl tm rpc lines) →
       (lookupTool n tm).isSome = true) := by
  refine ⟨fun _ _ _ => rfl, ?_⟩
  intro jl tm rpc lines n a h
  induction lines with
  | nil => exact absurd h (by simp [runLoopEvents])
  | cons line rest ih =>
    have hrun : runLoopEvents jl tm rpc (line :: rest)
        = match processLine jl tm line with
          | .exitCmd => []
          | .skip => runLoopEvents jl tm rpc rest
          | .helpAll =>
            .printedHelpList (sortedToolNames tm) :: runLoopEvents jl tm rpc rest
          | .helpFor nm =>
            .printedHelpFor nm (lookupTool nm tm).isSome :: runLoopEvents jl tm rpc rest
          | .rejected reason =>
            .printedReject reason :: runLoopEvents jl tm rpc rest
          | .invoke nm ar =>
            match rpc nm ar with
            | .ok resp =>
              .rpcCall nm ar :: .printedResponse (renderResponse resp)
                :: runLoopEvents jl tm rpc rest
            | .error e =>
              .rpcCall nm ar :: .printedError e :: runLoopEvents jl tm rpc rest := rfl
    cases hp : processLine jl tm line with
    | exitCmd =>
      rw [hrun, hp] at h
      exact absurd h (by simp)
    | skip =>
      rw [hrun, hp] at h
      exact ih h
    | helpAll =>
      rw [hrun, hp] at h
      exact ih (by simpa using h)
    | helpFor nm =>
      rw [hrun, hp] at h
      exact ih (by simpa using h)
    | rejected reason =>
      rw [hrun, hp] at h
      exact ih (by simpa using h)
    | invoke nm ar =>
      rw [hrun, hp] at h
      cases hr : rpc nm ar with
      | ok resp =>
        simp only [hr, rpcCalls_cons_rpc, rpcCalls_cons_response, List.mem_cons] at h
        rcases h with h | h
        · obtain ⟨rfl, rfl⟩ := Prod.mk.injEq .. |>.mp h
          obtain ⟨t, ht⟩ := processLine_invoke_lookup hp
          simp [ht]
        · exact ih h
      | error e =>
        simp only [hr, rpcCalls_cons_rpc, rpcCalls_cons_error, List.mem_cons] at h
        rcases h with h | h
        · obtain ⟨rfl, rfl⟩ := Prod.mk.injEq .. |>.mp h
          obtain ⟨t, ht⟩ := processLine_invoke_lookup hp
          simp [ht]
        · exact ih h

/-- C3 witness: the one RPC call the loop makes on input
`Foo, \x7b\x7d` is for a name present in the catalog. -/
theorem c3_witness :
    ("Foo", ([] : List (String × JsonValue)))
      ∈ rpcCalls (runLoopEvents jsonLoadsSample tmFoo rpcProbe ["Foo, \x7b\x7d"]) ∧
    (lookupTool "Foo" tmFoo).isSome = true := by
  have hm : ("Foo", ([] : List (String × JsonValue)))
      ∈ rpcCalls (runLoopEvents jsonLoadsSample tmFoo rpcProbe ["Foo, \x7b\x7d"]) :=
    List.mem_singleton.mpr rfl
  exact ⟨hm, c3_loop_guards_catalog_membership.2 jsonLoadsSample tmFoo rpcProbe
    ["Foo, \x7b\x7d"] "Foo" [] hm⟩

/-- C5: a readiness poll whose connected-predicate holds on no attempt
(each attempt may raise, return no usable content, or report
not-connected) performs exactly its bound of attempts, one
configured-interval sleep per attempt, finishes not-connected without
raising, and — at the source's bound of 30 — `main` still proceeds to
normal operation with only the logged warning before fetching tools
and running the loop. -/
theorem c5_poll_exhausts_bound_and_proceeds
    (yl : String → Except PyExc JsonValue)
    (call : Nat → Except PyExc StatusResponse) (N : Nat)
    (jl : String → Option JsonValue) (tm : List (String × Tool))
    (rpc : String → List (String × JsonValue) → Except String ToolResponse)
    (lines : List String)
    (h : ∀ i, i < N → attemptConnected yl (call i) = false) :
    pollPluginStatus yl call N = { connected := false, attempts := N, sleeps := N } ∧
    (N = 30 → clientMain yl call jl tm rpc lines
      = { poll := { connected := false, attempts := 30, sleeps := 30 },
          warned := true, loop := runLoopEvents jl tm rpc lines }) := by
  have hpoll : pollPluginStatus yl call N
      = { connected := false, attempts := N, sleeps := N } :=
    pollAux_never_connected yl call N 0 (fun i _ h2 => h i (by omega))
  refine ⟨hpoll, ?_⟩
  intro hN
  subst hN
  simp [clientMain, hpoll]

/-- C5 witness: with every status call raising, the poll runs all 30
attempts and 30 sleeps, stays not-connected, and `main` warns and runs
the loop. -/
theorem c5_witness :
    pollPluginStatus (fun _ => .ok .null) (fun _ => .error .noSuchProcess) 30
      = { connected := false, attempts := 30, sleeps := 30 } ∧
    clientMain (fun _ => .ok .null) (fun _ => .error .noSuchProcess)
        jsonLoadsSample tmFoo rpcProbe ["exit"]
      = { poll := { connected := false, attempts := 30, sleeps := 30 },
          warned := true, loop := [] } := by
  have h := c5_poll_exhausts_bound_and_proceeds (fun _ => .ok .null)
    (fun _ => .error .noSuchProcess) 30 jsonLoadsSample tmFoo rpcProbe ["exit"]
    (fun _ _ => rfl)
  exact ⟨h.1, (h.2 rfl).trans rfl⟩

/-- C2 counterexample: `__aexit__` wraps the transport close in no
`try`, so when `self.client.__aexit__` raises, the error propagates to
the caller and the process-signaling step is skipped entirely — the
trace stops at the transport-close attempt. -/
theorem c2_counterexample_transport_close_error_propagates :
    MCPClient.aexit (.error (.other "transport close failed")) true
        (fun _ => true) (fun _ => .ok ()) sampleSt
      = ([CloseEvent.clientExitCall], some (PyExc.other "transport close failed")) :=
  rfl

/-- C2 (amended): during close of a session that launched its own
process, the transport close is attempted first and the process is
signaled second, but the signaling step runs only when the transport
close did not raise; when it did not, the signaling step's own
failures (process gone, signal refused) are swallowed — with psutil
importable — and close returns without error, ending with the fixed
grace sleep. -/
theorem c2_close_order_and_swallowed_signal_errors
    (procExists : Nat → Bool) (sendResult : Nat → Except PyExc Unit)
    (st : MCPClientSt) (pid : Nat)
    (hclient : st.hasClient = true) (hpid : st.server_pid = some pid)
    (hne : pid ≠ 0) :
    ∃ sig, MCPClient.aexit (.ok ()) true procExists sendResult st
      = (CloseEvent.clientExitCall :: CloseEvent.cleanupCall pid :: sig
          ++ [CloseEvent.graceSleep], none) := by
  by_cases hpe : procExists pid = true
  · cases hsr : sendResult pid with
    | ok u =>
      refine ⟨[CloseEvent.sigterm pid], ?_⟩
      simp [MCPClient.aexit, cleanup_server_process, hclient, hpid, hne, hpe, hsr]
    | error e =>
      refine ⟨[], ?_⟩
      simp [MCPClient.aexit, cleanup_server_process, hclient, hpid, hne, hpe, hsr]
  · refine ⟨[], ?_⟩
    simp only [Bool.not_eq_true] at hpe
    simp [MCPClient.aexit, cleanup_server_process, hclient, hpid, hne, hpe]

/-- C2 witness: a clean close of the sample session closes the
transport first, signals pid 7 second, and raises nothing. -/
theorem c2_witness :
    ∃ sig, MCPClient.aexit (.ok ()) true (fun _ => true) (fun _ => .ok ()) sampleSt
      = (CloseEvent.clientExitCall :: CloseEvent.cleanupCall 7 :: sig
          ++ [CloseEvent.graceSleep], none) :=
  c2_close_order_and_swallowed_signal_errors (fun _ => true) (fun _ => .ok ())
    sampleSt 7 rfl rfl (by decide)

/-- C6 counterexample: `__aexit__` clears neither `self.client` nor
`self.server_pid`, so a second close starts from the identical state
and re-invokes the process-signaling step (`cleanup_server_process`)
with the same stale pid — a second attempt to signal the
already-terminated process, harmless only because the psutil lookup
fails and is swallowed.  First close: signal delivered to pid 7; second
close, process now gone: the cleanup call happens again. -/
theorem c6_counterexample_second_close_reattempts_cleanup :
    MCPClient.aexit (.ok ()) true (fun _ => true) (fun _ => .ok ()) sampleSt
      = ([CloseEvent.clientExitCall, CloseEvent.cleanupCall 7,
          CloseEvent.sigterm 7, CloseEvent.graceSleep], none) ∧
    MCPClient.aexit (.ok ()) true (fun _ => false) (fun _ => .ok ()) sampleSt
      = ([CloseEvent.clientExitCall, CloseEvent.cleanupCall 7,
          CloseEvent.graceSleep], none) ∧
    CloseEvent.cleanupCall 7
      ∈ (MCPClient.aexit (.ok ()) true (fun _ => false) (fun _ => .ok ()) sampleSt).1 :=
  ⟨rfl, rfl, by decide⟩

/-- C6 (amended): a second `close()` re-invokes the signaling step with
the same stored pid, but because the process no longer exists the
psutil lookup raises `NoSuchProcess`, which is swallowed: no
termination signal is delivered and — provided psutil is importable
and the transport's second close does not itself raise — no error is
raised. -/
theorem c6_second_close_no_signal_no_error
    (sendResult : Nat → Except PyExc Unit) (procExists : Nat → Bool)
    (st : MCPClientSt) (pid : Nat)
    (hclient : st.hasClient = true) (hpid : st.server_pid = some pid)
    (hne : pid ≠ 0) (hterm : procExists pid = false) :
    MCPClient.aexit (.ok ()) true procExists sendResult st
      = ([CloseEvent.clientExitCall, CloseEvent.cleanupCall pid,
          CloseEvent.graceSleep], none) := by
  simp [MCPClient.aexit, cleanup_server_process, hclient, hpid, hne, hterm]

/-- C6 witness: the second close of the sample session, with the
process gone and the signal oracle refusing, still delivers no signal
and raises no error. -/
theorem c6_witness :
    MCPClient.aexit (.ok ()) true (fun _ => false) (fun _ => .error .accessDenied)
        sampleSt
      = ([CloseEvent.clientExitCall, CloseEvent.cleanupCall 7,
          CloseEvent.graceSleep], none) :=
  c6_second_close_no_signal_no_error (fun _ => .error .accessDenied)
    (fun _ => false) sampleSt 7 rfl rfl (by decide) rfl

/-- C7 counterexample: `__aenter__` gates the initialization sleep on
`self.command_name` alone, and `__init__` stores the passed command
even when a caller-supplied transport was also passed and therefore no
process was launched by the session.  Constructing with both a
transport and a command yields a session attached to the caller's
transport whose enter still waits the delay. -/
theorem c7_counterexample_delay_with_supplied_transport :
    (MCPClient.init true (some "node") (some ["dist/index.js"]) none 2).transport
      = TransportChoice.supplied ∧
    (MCPClient.aenter (fun _ _ => some 9)
        (MCPClient.init true (some "node") (some ["dist/index.js"]) none 2)).2
      = [EnterEvent.clientEnter, EnterEvent.pidLookup "node" "dist/index.js",
         EnterEvent.initSleep 2] ∧
    EnterEvent.initSleep 2 ∈ (MCPClient.aenter (fun _ _ => some 9)
        (MCPClient.init true (some "node") (some ["dist/index.js"]) none 2)).2 :=
  ⟨rfl, rfl, by decide⟩

/-- C7 (amended): the post-connect initialization delay is waited
exactly when the constructor received a truthy command and a positive
`init_delay` — independently of whether a transport was also supplied.
In particular, a session constructed with only a caller-supplied
transport (command omitted, as the repository's own attach call site
does) never waits, and a launched session with positive delay always
waits. -/
theorem c7_init_delay_iff_truthy_command
    (transportArg : Bool) (command : Option String)
    (args : Option (List String)) (cwd : Option String) (d : Rat)
    (findPid : String → String → Option Nat) :
    EnterEvent.initSleep d ∈
      (MCPClient.aenter findPid (MCPClient.init transportArg command args cwd d)).2
    ↔ (pyTruthyStrOpt command = true ∧ 0 < d) := by
  by_cases hc : pyTruthyStrOpt command = true <;>
    by_cases ha : pyTruthyStrOpt (pyHeadIfTruthy args) = true <;>
      by_cases hd : 0 < d <;>
        simp [MCPClient.aenter, MCPClient.init, hc, ha, hd, apply_ite]

/-- C7 witness: an attach-only construction (transport, no command)
waits no delay, and a launch construction with the default delay
waits. -/
theorem c7_witness :
    (EnterEvent.initSleep 2 ∈
      (MCPClient.aenter (fun _ _ => none) (MCPClient.init true none none none 2)).2
      → False) ∧
    EnterEvent.initSleep 2 ∈
      (MCPClient.aenter (fun _ _ => none)
        (MCPClient.init false (some "node") (some ["dist/index.js"]) none 2)).2 :=
  ⟨fun h => by
      have := (c7_init_delay_iff_truthy_command true none none none 2
        (fun _ _ => none)).mp h
      exact absurd this.1 (by decide),
   (c7_init_delay_iff_truthy_command false (some "node") (some ["dist/index.js"])
      none 2 (fun _ _ => none)).mpr ⟨rfl, by decide⟩⟩

/-- C10: the claim that the process-cleanup step never propagates an
exception is the code's own evident intent — the `except` clause lists
`ImportError` — but the clause's tuple `(psutil.NoSuchProcess,
ImportError, Exception)` is evaluated at handling time, and when the
`import psutil` inside the `try` failed, the local name `psutil` is
unbound, so evaluating the tuple raises a NameError that escapes
`cleanup_server_process`.  The reverse lookup `find_server_pid`, whose
outer handler names only `ImportError`, does return a no-match result
when introspection is unavailable, as claimed. -/
theorem c10_cleanup_raises_nameerror_without_psutil :
    cleanup_server_process false (fun _ => true) (fun _ => .ok ()) 5
      = ([], some (PyExc.nameError "psutil")) ∧
    find_server_pid false 1 [] "node" "dist/index.js" = none :=
  ⟨rfl, rfl⟩
